import Mathlib

/-!
Verification development for `mcp_client.py`, a demonstration client that
bridges an MCP tool server with the OpenAI chat-completions API.

The Python source is shallowly embedded below.  Python objects with dynamic
attributes are modelled with `Option (Option _)` fields: the outer `Option`
records whether the attribute is present at all (`getattr` with a default),
the inner one whether its value is `None` (Python null) or an actual value.
Python exceptions are modelled with `Except String`; `print` diagnostics are
not modelled (they carry no state).  External collaborators (the OpenAI
endpoint, the MCP session, `json.loads`) are modelled as oracles supplied in
an environment record, mirroring the await points of the source.
-/

/-- A source-form MCP tool argument as the translator probes it
(`mcp_client.py` lines 56-62): each attribute is fetched with `getattr`
and may be absent, null, or a value. -/
structure McpArg where
  name : Option (Option String)
  description : Option (Option String)
  required : Option (Option Bool)
  deriving DecidableEq

/-- A source-form MCP tool descriptor as probed by `mcp_tool_to_openai_tool`
(`mcp_client.py` lines 49, 71-72). -/
structure McpTool where
  name : Option (Option String)
  description : Option (Option String)
  arguments : Option (Option (List McpArg))
  deriving DecidableEq

/-- One property of the OpenAI JSON-schema `parameters` object
(`mcp_client.py` lines 64-67).  The description is `Option String` because a
Python dict value could in principle be null; the translator is supposed to
normalize it to a string. -/
structure PropSchema where
  type : String
  description : Option String
  deriving DecidableEq

/-- The `parameters` object built at `mcp_client.py` lines 42-46: a JSON
schema with a property map (dict, modelled as an association list with
Python-dict insertion semantics) and a required-name list. -/
structure OpenAIParams where
  type : String
  properties : List (String × PropSchema)
  required : List String
  deriving DecidableEq

/-- The inner `function` object of the OpenAI tool descriptor
(`mcp_client.py` lines 76-80).  The name is `Option String` because
`getattr(mcp_tool, 'name', 'unknown_tool')` passes a present-but-null
name through unchanged. -/
structure OpenAIFunction where
  name : Option String
  description : Option String
  parameters : OpenAIParams
  deriving DecidableEq

/-- The target-form OpenAI tool descriptor (`mcp_client.py` lines 74-81). -/
structure OpenAITool where
  type : String
  function : OpenAIFunction
  deriving DecidableEq

/-- Python `x or ''` applied to a string-or-null value
(`mcp_client.py` lines 61 and 72): null and the empty string are falsy and
give `''`; any other string is returned unchanged. -/
def pyOrStr (v : Option String) : Option String :=
  match v with
  | none => some ""
  | some s => if s = "" then some "" else some s

/-- Python truthiness of `getattr(arg, 'required', False)`
(`mcp_client.py` lines 62, 68): only a present, non-null `True` is truthy. -/
def pyReq (a : McpArg) : Bool :=
  match a.required.getD (some false) with
  | some b => b
  | none => false

/-- The effective name of an argument: `arg_name = getattr(arg, 'name', None)`
followed by the `if not arg_name` truthiness test (`mcp_client.py` lines
56-57).  Absent, null and empty-string names are all falsy. -/
def effName (a : McpArg) : Option String :=
  match a.name.getD none with
  | none => none
  | some s => if s = "" then none else some s

/-- The property schema built for a named argument
(`mcp_client.py` lines 61, 64-67): type `"string"`, description
`getattr(arg, 'description', '') or ''`. -/
def mkSchema (a : McpArg) : PropSchema :=
  ⟨"string", pyOrStr (a.description.getD (some ""))⟩

/-- Python-dict assignment `d[k] = v`: replace the value of an existing key
in place, otherwise append the new key at the end
(`mcp_client.py` line 64). -/
def dictInsert : List (String × PropSchema) → String → PropSchema → List (String × PropSchema)
  | [], k, v => [(k, v)]
  | p :: ps, k, v => if p.1 = k then (k, v) :: ps else p :: dictInsert ps k v

/-- The argument loop at `mcp_client.py` lines 52-69.  `toolName` is the
tool's `name` attribute (needed because the warning for a nameless argument
at line 58 reads `mcp_tool.name` directly, which raises `AttributeError`
when the attribute is absent).  On a falsy argument name the entry is
skipped after the diagnostic; otherwise the property map and required list
are extended. -/
def processArgs (toolName : Option (Option String)) :
    List McpArg → OpenAIParams → Except String OpenAIParams
  | [], p => Except.ok p
  | a :: rest, p =>
    match effName a with
    | none =>
      match toolName with
      | none => Except.error "AttributeError: name"
      | some _ => processArgs toolName rest p
    | some n =>
      processArgs toolName rest
        { p with
          properties := dictInsert p.properties n (mkSchema a),
          required := if pyReq a then p.required ++ [n] else p.required }

/-- `mcp_tool_to_openai_tool` (`mcp_client.py` lines 40-81): convert one MCP
tool descriptor to the OpenAI function-calling schema.  The argument list is
fetched with `getattr(mcp_tool, 'arguments', None)` and iterated only when
truthy (present, non-null and non-empty). -/
def mcp_tool_to_openai_tool (t : McpTool) : Except String OpenAITool :=
  let initParams : OpenAIParams := ⟨"object", [], []⟩
  let argsResult : Except String OpenAIParams :=
    match t.arguments.getD none with
    | none => Except.ok initParams
    | some [] => Except.ok initParams
    | some args => processArgs t.name args initParams
  match argsResult with
  | Except.error e => Except.error e
  | Except.ok ps =>
    Except.ok ⟨"function",
      ⟨t.name.getD (some "unknown_tool"),
       pyOrStr (t.description.getD (some "")),
       ps⟩⟩

/-- The Python argument list actually iterated over (empty when the
`arguments` attribute is absent, null or an empty list). -/
def pyArgs (t : McpTool) : List McpArg :=
  (t.arguments.getD none).getD []

/-- Startup tool discovery (`mcp_client.py` lines 142-153): `openai_tools`
starts empty; if `list_tools` succeeds with a non-empty list the tools are
converted; any exception (from the call or from a conversion) leaves the
empty list in place. -/
def setupTools (r : Except String (List McpTool)) : List OpenAITool :=
  match r with
  | Except.error _ => []
  | Except.ok tools =>
    if tools.isEmpty then []
    else
      match tools.mapM mcp_tool_to_openai_tool with
      | Except.ok l => l
      | Except.error _ => []

/-- Message roles occurring in the chat history of `run_client`. -/
inductive Role
  | system
  | user
  | assistant
  | tool
  deriving DecidableEq

/-- The `function` part of an OpenAI tool call
(`tool_call.function.name`, `tool_call.function.arguments`). -/
structure ToolCallFunction where
  name : String
  arguments : String
  deriving DecidableEq

/-- A tool-call intent as returned by the completion endpoint
(`mcp_client.py` lines 208-210). -/
structure ToolCall where
  id : String
  function : ToolCallFunction
  deriving DecidableEq

/-- One entry of the `messages` history list.  `content` is nullable (the
assistant content of a tool-call message, or a null final answer);
`tool_call_id` and `name` are set only on tool-role messages
(`mcp_client.py` lines 156-167, 187, 205, 218, 238, 244). -/
structure Message where
  role : Role
  content : Option String
  tool_calls : List ToolCall
  tool_call_id : Option String
  name : Option String
  deriving DecidableEq

/-- The message of the first completion response
(`response.choices[0].message`, `mcp_client.py` lines 197-198).  A null
`tool_calls` attribute and an empty list are both falsy at line 201, so the
two are collapsed into the empty list. -/
structure CompletionResponse where
  content : Option String
  tool_calls : List ToolCall
  deriving DecidableEq

/-- Externally visible requests issued during one loop iteration: a
chat-completions request (with the message list, the optional tool list and
the optional tool-choice mode actually passed) or an MCP `call_tool`
request. -/
inductive Event
  | completionRequest (messages : List Message) (tools : Option (List OpenAITool))
      (tool_choice : Option String)
  | toolCall (name : String) (arguments : List (String × String))
  deriving DecidableEq

/-- Oracles for one loop iteration's external collaborators: `json.loads`
on the serialized arguments (decoded as a key-to-text mapping), the MCP
session's `call_tool` (its result already stringified by `str(...)` at
line 218), and the outcomes of the two `chat.completions.create` awaits.
`Except.error` models a raised exception. -/
structure TurnEnv where
  jsonLoads : String → Except String (List (String × String))
  callTool : String → List (String × String) → Except String String
  completion1 : Except String CompletionResponse
  completion2 : Except String (Option String)

/-- The user message appended at `mcp_client.py` line 187. -/
def mkUserMsg (s : String) : Message :=
  ⟨Role.user, some s, [], none, none⟩

/-- A plain assistant message (`mcp_client.py` lines 238, 244). -/
def mkAssistantMsg (c : Option String) : Message :=
  ⟨Role.assistant, c, [], none, none⟩

/-- The assistant tool-call message appended verbatim at line 205. -/
def mkAssistantToolMsg (r : CompletionResponse) : Message :=
  ⟨Role.assistant, r.content, r.tool_calls, none, none⟩

/-- A tool-role result message (`mcp_client.py` lines 218, 221, 224). -/
def mkToolMsg (id fn content : String) : Message :=
  ⟨Role.tool, some content, [], some id, some fn⟩

/-- The initial system message (`mcp_client.py` lines 156-167). -/
def mkSystemMsg : Message :=
  ⟨Role.system,
   some "Ты полезный русскоязычный ассистент-калькулятор. У тебя есть доступ к следующим математическим инструментам:\n1. add - сложение двух чисел\n2. subtract - вычитание двух чисел\n\nКогда пользователь просит произвести математические вычисления:\n- Используй add для сложения\n- Используй subtract для вычитания\n\n\nВсегда используй инструменты для вычислений, даже для простых операций.",
   [], none, none⟩

/-- Handling of one tool-call intent (`mcp_client.py` lines 208-224):
decode the arguments with `json.loads`; on decode failure synthesize the
fixed error content; otherwise invoke `session.call_tool` and record its
stringified result, or the failure text on an invocation exception.  The
second component lists the MCP requests actually issued (none when the
arguments did not decode). -/
def handleToolCall (env : TurnEnv) (tc : ToolCall) : Message × List Event :=
  match env.jsonLoads tc.function.arguments with
  | Except.error _ =>
    (mkToolMsg tc.id tc.function.name "Ошибка: неверный формат аргументов JSON.", [])
  | Except.ok args =>
    match env.callTool tc.function.name args with
    | Except.ok res =>
      (mkToolMsg tc.id tc.function.name res, [Event.toolCall tc.function.name args])
    | Except.error e =>
      (mkToolMsg tc.id tc.function.name ("Ошибка выполнения инструмента: " ++ e),
       [Event.toolCall tc.function.name args])

/-- The per-intent loop at `mcp_client.py` lines 208-224, producing
`tool_results_messages` in intent order. -/
def processToolCalls (env : TurnEnv) (intents : List ToolCall) : List (Message × List Event) :=
  intents.map (handleToolCall env)

/-- Outcome of one loop-body execution past the input checks. -/
structure TurnResult where
  messages : List Message
  events : List Event
  answer : Option (Option String)
  deriving DecidableEq

/-- One execution of the loop body for a non-exit, non-empty input
(`mcp_client.py` lines 186-247): append the user message; issue the first
completion request with the translated tool list (`None` when empty) and
automatic tool choice; on tool-call intents append the assistant message
verbatim, process every intent, extend the history with all tool results,
issue the second completion request (no tool list), and append the final
answer; otherwise append the direct answer.  `answer = none` means an
exception escaped to the outer handler (which breaks the loop) with the
history in its partially mutated state. -/
def runTurn (env : TurnEnv) (tools : List OpenAITool) (messages : List Message)
    (user_request : String) : TurnResult :=
  let m1 := messages ++ [mkUserMsg user_request]
  let ev1 := Event.completionRequest m1 (if tools.isEmpty then none else some tools)
      (some "auto")
  match env.completion1 with
  | Except.error _ => ⟨m1, [ev1], none⟩
  | Except.ok resp =>
    if resp.tool_calls.isEmpty then
      ⟨m1 ++ [mkAssistantMsg resp.content], [ev1], some resp.content⟩
    else
      let handled := processToolCalls env resp.tool_calls
      let m3 := (m1 ++ [mkAssistantToolMsg resp]) ++ handled.map Prod.fst
      let evs := ev1 :: (handled.map Prod.snd).flatten ++ [Event.completionRequest m3 none none]
      match env.completion2 with
      | Except.error _ => ⟨m3, evs, none⟩
      | Except.ok ans => ⟨m3 ++ [mkAssistantMsg ans], evs, some ans⟩

/-- Python `str.lower` restricted to the alphabets the program compares
(ASCII and the Cyrillic block used by the exit keyword); other characters
are unchanged. -/
def pyCharLower (c : Char) : Char :=
  if 65 ≤ c.toNat ∧ c.toNat ≤ 90 then Char.ofNat (c.toNat + 32)
  else if 1040 ≤ c.toNat ∧ c.toNat ≤ 1071 then Char.ofNat (c.toNat + 32)
  else if c.toNat = 1025 then Char.ofNat 1105
  else c

/-- Characters removed by Python `str.strip()` (ASCII whitespace
range). -/
def pySpace (c : Char) : Bool :=
  c = ' ' || c = '\t' || c = '\n' || c = '\x0d' || c = '\x0b' || c = '\x0c'

/-- Python `str.strip()` on a character list. -/
def pyStrip (l : List Char) : List Char :=
  ((l.dropWhile pySpace).reverse.dropWhile pySpace).reverse

/-- Python `str.lower()` on a character list. -/
def pyLower (l : List Char) : List Char :=
  l.map pyCharLower

/-- The exit test `user_request.strip().lower() == "выход"`
(`mcp_client.py` line 180). -/
def isExitRequest (s : String) : Bool :=
  decide (pyLower (pyStrip s.toList) = "выход".toList)

/-- The empty-input test `not user_request.strip()`
(`mcp_client.py` line 183). -/
def isEmptyRequest (s : String) : Bool :=
  decide (pyStrip s.toList = [])

/-- How the chat loop ended: the exit keyword (`break` at line 182), the
input stream running dry (`input()` raising end-of-file into the outer
handler), or an unrecovered exception inside the body (`break` at
line 251). -/
inductive ExitKind
  | exitCommand
  | endOfInput
  | loopError
  deriving DecidableEq

/-- The `while True` chat loop (`mcp_client.py` lines 176-251) over a
script of pending inputs, each bundled with the oracle outcomes its
iteration would observe.  The translated tool list is fixed for the whole
session.  Returns the final history, every external request issued, and
how the loop ended. -/
def chatLoop (tools : List OpenAITool) :
    List (String × TurnEnv) → List Message → List Event →
    List Message × List Event × ExitKind
  | [], msgs, evs => (msgs, evs, ExitKind.endOfInput)
  | (s, env) :: rest, msgs, evs =>
    if isExitRequest s then (msgs, evs, ExitKind.exitCommand)
    else if isEmptyRequest s then chatLoop tools rest msgs evs
    else
      let r := runTurn env tools msgs s
      match r.answer with
      | some _ => chatLoop tools rest r.messages (evs ++ r.events)
      | none => (r.messages, evs ++ r.events, ExitKind.loopError)

/-- Result of a whole client session.  The two released-resource flags
model the unwinding of the `async with stdio_client(...)` and
`async with ClientSession(...)` scopes (`mcp_client.py` lines 129, 133,
256-257), which close the session and the server connection on every exit
path of the loop. -/
structure ClientResult where
  messages : List Message
  events : List Event
  exit : ExitKind
  sessionClosed : Bool
  connectionClosed : Bool
  deriving DecidableEq

/-- `run_client` from startup tool discovery onwards (`mcp_client.py`
lines 141-257): discover and translate the tools, seed the history with the
system message, run the chat loop, and unwind both resource scopes. -/
def run_client (listToolsOutcome : Except String (List McpTool))
    (inputs : List (String × TurnEnv)) : ClientResult :=
  let tools := setupTools listToolsOutcome
  let r := chatLoop tools inputs [mkSystemMsg] []
  ⟨r.1, r.2.1, r.2.2, true, true⟩

/-- Key-list effect of one Python-dict assignment: an existing key keeps
its position, a new key is appended. -/
def insKey (ks : List String) (k : String) : List String :=
  if k ∈ ks then ks else ks ++ [k]

/-- The `required` entry an argument contributes: its effective name when
its `required` attribute is truthy. -/
def reqName (a : McpArg) : Option String :=
  match effName a with
  | none => none
  | some n => if pyReq a then some n else none

/-- Modelled from the claim's words, for comparison with the code: the
number of source arguments carrying a non-empty (truthy) name. -/
def specNamedArgCount (t : McpTool) : Nat :=
  ((pyArgs t).filter (fun a => (effName a).isSome)).length

/-- A tool descriptor with no `name` attribute whose argument list holds a
single argument that also lacks a name. -/
def c2FailTool : McpTool :=
  ⟨none, none, some (some [⟨none, none, none⟩])⟩

/-- A tool descriptor with two arguments that share the name `x`. -/
def c3DupTool : McpTool :=
  ⟨some (some "t"), none,
   some (some [⟨some (some "x"), some (some "d1"), some (some true)⟩,
               ⟨some (some "x"), some (some "d2"), none⟩])⟩

/-- A tool descriptor with no `name` attribute, one named argument and one
nameless argument. -/
def c9FailTool : McpTool :=
  ⟨none, some (some "desc"),
   some (some [⟨some (some "a"), none, some (some true)⟩,
               ⟨some none, none, none⟩])⟩

/-- A tool descriptor whose own description and whose argument's
description are present but null. -/
def c10NullDescTool : McpTool :=
  ⟨some (some "t"), some none,
   some (some [⟨some (some "p"), some none, some (some true)⟩])⟩

/-- A turn environment for concrete runs: argument text `notjson` fails to
decode, tool `boom` fails to execute, the first completion requests three
tool calls and the second returns a plain text answer. -/
def wToolEnv : TurnEnv :=
  ⟨fun s => if s = "notjson" then Except.error "Expecting value" else Except.ok [("a", "2")],
   fun n _ => if n = "boom" then Except.error "kaput" else Except.ok "4",
   Except.ok ⟨none, [⟨"call1", ⟨"add", "argtext"⟩⟩,
                     ⟨"call2", ⟨"boom", "argtext"⟩⟩,
                     ⟨"call3", ⟨"add", "notjson"⟩⟩]⟩,
   Except.ok (some "2 + 2 = 4")⟩

/-- A turn environment whose first completion answers directly. -/
def wPlainEnv : TurnEnv :=
  ⟨fun _ => Except.ok [], fun _ _ => Except.ok "",
   Except.ok ⟨some "Привет", []⟩, Except.ok (some "Привет")⟩

/-- A well-formed two-argument tool descriptor, for concrete witnesses. -/
def addTool : McpTool :=
  ⟨some (some "add"), some (some "adds"),
   some (some [⟨some (some "a"), some (some "first"), some (some true)⟩,
               ⟨some (some "b"), some none, some (some false)⟩])⟩

/-- The translation of `addTool`. -/
def addToolOut : OpenAITool :=
  ⟨"function",
   ⟨some "add", some "adds",
    ⟨"object",
     [("a", ⟨"string", some "first"⟩), ("b", ⟨"string", some ""⟩)],
     ["a"]⟩⟩⟩

/-- A named tool descriptor whose argument list mixes named and nameless
arguments, for concrete witnesses. -/
def c9WitTool : McpTool :=
  ⟨some (some "calc"), none,
   some (some [⟨some (some "a"), none, some (some true)⟩,
               ⟨none, none, none⟩,
               ⟨some (some "b"), none, none⟩])⟩

/-- The translation of `c10NullDescTool`. -/
def c10NullDescOut : OpenAITool :=
  ⟨"function",
   ⟨some "t", some "",
    ⟨"object", [("p", ⟨"string", some ""⟩)], ["p"]⟩⟩⟩

/-- The first completion response served by `wToolEnv`. -/
def wResp : CompletionResponse :=
  ⟨none, [⟨"call1", ⟨"add", "argtext"⟩⟩,
          ⟨"call2", ⟨"boom", "argtext"⟩⟩,
          ⟨"call3", ⟨"add", "notjson"⟩⟩]⟩

/-- The third tool-call intent of `wResp` (undecodable arguments). -/
def wTc3 : ToolCall := ⟨"call3", ⟨"add", "notjson"⟩⟩

theorem processArgs_nil_eq (tn : Option (Option String)) (p : OpenAIParams) :
    processArgs tn [] p = Except.ok p := rfl

theorem processArgs_cons_eq (tn : Option (Option String)) (a : McpArg) (rest : List McpArg)
    (p : OpenAIParams) :
    processArgs tn (a :: rest) p =
      (match effName a with
       | none =>
         match tn with
         | none => Except.error "AttributeError: name"
         | some _ => processArgs tn rest p
       | some n =>
         processArgs tn rest
           { p with
             properties := dictInsert p.properties n (mkSchema a),
             required := if pyReq a then p.required ++ [n] else p.required }) := rfl

theorem dictInsert_keys (d : List (String × PropSchema)) (k : String) (v : PropSchema) :
    (dictInsert d k v).map Prod.fst = insKey (d.map Prod.fst) k := by
  induction d with
  | nil => simp [dictInsert, insKey]
  | cons p ps ih =>
    by_cases h : p.1 = k
    · subst h
      simp [dictInsert, insKey]
    · by_cases hk : k ∈ ps.map Prod.fst
      · simp [dictInsert, h, ih, insKey, hk, Ne.symm h]
      · simp [dictInsert, h, ih, insKey, hk, Ne.symm h]

theorem mem_insKey_self (ks : List String) (k : String) : k ∈ insKey ks k := by
  unfold insKey
  by_cases h : k ∈ ks <;> simp [h]

theorem mem_insKey_mono (ks : List String) (k x : String) (h : x ∈ ks) : x ∈ insKey ks k := by
  unfold insKey
  by_cases hk : k ∈ ks <;> simp [hk, h]

theorem mem_foldl_insKey_acc (l : List String) (acc : List String) (x : String)
    (h : x ∈ acc) : x ∈ l.foldl insKey acc := by
  induction l generalizing acc with
  | nil => simpa using h
  | cons a as ih => exact ih _ (mem_insKey_mono _ _ _ h)

theorem mem_foldl_insKey (l : List String) (acc : List String) (x : String)
    (h : x ∈ l) : x ∈ l.foldl insKey acc := by
  induction l generalizing acc with
  | nil => cases h
  | cons a as ih =>
    simp only [List.foldl_cons]
    rcases List.mem_cons.mp h with h1 | h2
    · subst h1
      exact mem_foldl_insKey_acc _ _ _ (mem_insKey_self _ _)
    · exact ih _ h2

theorem processArgs_spec (args : List McpArg) (tn : Option (Option String))
    (p out : OpenAIParams) (h : processArgs tn args p = Except.ok out) :
    out.type = p.type ∧
    out.properties.map Prod.fst =
      (args.filterMap effName).foldl insKey (p.properties.map Prod.fst) ∧
    out.required = p.required ++ args.filterMap reqName := by
  induction args generalizing p with
  | nil =>
    simp [processArgs] at h
    subst h
    simp
  | cons a rest ih =>
    rw [processArgs_cons_eq] at h
    cases he : effName a with
    | none =>
      rw [he] at h
      cases tn with
      | none => simp at h
      | some v =>
        have hrn : reqName a = none := by simp [reqName, he]
        have h3 := ih p h
        simpa [he, hrn] using h3
    | some n =>
      rw [he] at h
      have h3 := ih _ h
      have hrn : reqName a = (if pyReq a then some n else none) := by
        simp [reqName, he]
      by_cases hr : pyReq a
      · simpa [he, hrn, hr, dictInsert_keys] using h3
      · simpa [he, hrn, hr, dictInsert_keys] using h3

theorem processArgs_total (args : List McpArg) (v : Option String) (p : OpenAIParams) :
    ∃ out, processArgs (some v) args p = Except.ok out := by
  induction args generalizing p with
  | nil => exact ⟨p, rfl⟩
  | cons a rest ih =>
    rw [processArgs_cons_eq]
    cases he : effName a with
    | none => simpa [he] using ih p
    | some n => simpa [he] using ih _

theorem mem_dictInsert (d : List (String × PropSchema)) (k : String) (v : PropSchema)
    (x : String × PropSchema) (h : x ∈ dictInsert d k v) : x = (k, v) ∨ x ∈ d := by
  induction d with
  | nil => simpa [dictInsert] using h
  | cons p ps ih =>
    by_cases hp : p.1 = k
    · simp [dictInsert, hp] at h
      rcases h with h | h
      · left
        simp [h]
      · right
        exact List.mem_cons_of_mem _ h
    · simp [dictInsert, hp] at h
      rcases h with h | h
      · right
        simp [h]
      · rcases ih h with h1 | h1
        · left
          exact h1
        · right
          exact List.mem_cons_of_mem _ h1

theorem processArgs_props_origin (args : List McpArg) (tn : Option (Option String))
    (p out : OpenAIParams) (h : processArgs tn args p = Except.ok out)
    (x : String × PropSchema) (hx : x ∈ out.properties) :
    x ∈ p.properties ∨ ∃ a, a ∈ args ∧ effName a = some x.1 ∧ x.2 = mkSchema a := by
  induction args generalizing p with
  | nil =>
    simp [processArgs] at h
    subst h
    left
    exact hx
  | cons a rest ih =>
    rw [processArgs_cons_eq] at h
    cases he : effName a with
    | none =>
      rw [he] at h
      cases tn with
      | none => simp at h
      | some v =>
        rcases ih p h with h1 | ⟨b, hb, h2, h3⟩
        · left
          exact h1
        · right
          exact ⟨b, List.mem_cons_of_mem _ hb, h2, h3⟩
    | some n =>
      rw [he] at h
      rcases ih _ h with h1 | ⟨b, hb, h2, h3⟩
      · rcases mem_dictInsert _ _ _ _ h1 with h2 | h2
        · right
          refine ⟨a, List.mem_cons_self _ _, ?_, ?_⟩
          · rw [h2] at *
            simpa using he
          · rw [h2]
        · left
          exact h2
      · right
        exact ⟨b, List.mem_cons_of_mem _ hb, h2, h3⟩

theorem pyOrStr_ne_none (v : Option String) : pyOrStr v ≠ none := by
  cases v with
  | none => simp [pyOrStr]
  | some s =>
    simp only [pyOrStr]
    split <;> simp

theorem translator_ok_spec (t : McpTool) (out : OpenAITool)
    (h : mcp_tool_to_openai_tool t = Except.ok out) :
    out.type = "function" ∧
    out.function.name = t.name.getD (some "unknown_tool") ∧
    out.function.description = pyOrStr (t.description.getD (some "")) ∧
    out.function.parameters.type = "object" ∧
    out.function.parameters.properties.map Prod.fst =
      ((pyArgs t).filterMap effName).foldl insKey [] ∧
    out.function.parameters.required = (pyArgs t).filterMap reqName := by
  simp only [mcp_tool_to_openai_tool] at h
  cases harg : t.arguments.getD none with
  | none =>
    simp only [harg, Except.ok.injEq] at h
    subst h
    simp [pyArgs, harg]
  | some l =>
    cases l with
    | nil =>
      simp only [harg, Except.ok.injEq] at h
      subst h
      simp [pyArgs, harg]
    | cons a as =>
      simp only [harg] at h
      cases hres : processArgs t.name (a :: as) ⟨"object", [], []⟩ with
      | error e =>
        rw [hres] at h
        simp at h
      | ok ps =>
        rw [hres] at h
        simp only [Except.ok.injEq] at h
        subst h
        have hs := processArgs_spec (a :: as) t.name ⟨"object", [], []⟩ ps hres
        simp [pyArgs, harg, hs.1, hs.2.1, hs.2.2]

theorem translator_props_origin (t : McpTool) (out : OpenAITool)
    (h : mcp_tool_to_openai_tool t = Except.ok out)
    (x : String × PropSchema) (hx : x ∈ out.function.parameters.properties) :
    ∃ a, a ∈ pyArgs t ∧ effName a = some x.1 ∧ x.2 = mkSchema a := by
  simp only [mcp_tool_to_openai_tool] at h
  cases harg : t.arguments.getD none with
  | none =>
    simp only [harg, Except.ok.injEq] at h
    subst h
    simp at hx
  | some l =>
    cases l with
    | nil =>
      simp only [harg, Except.ok.injEq] at h
      subst h
      simp at hx
    | cons a as =>
      simp only [harg] at h
      cases hres : processArgs t.name (a :: as) ⟨"object", [], []⟩ with
      | error e =>
        rw [hres] at h
        simp at h
      | ok ps =>
        rw [hres] at h
        simp only [Except.ok.injEq] at h
        subst h
        have := processArgs_props_origin (a :: as) t.name ⟨"object", [], []⟩ ps hres x hx
        rcases this with h1 | ⟨b, hb, h2, h3⟩
        · simp at h1
        · exact ⟨b, by simpa [pyArgs, harg] using hb, h2, h3⟩

theorem translator_total_of_named (t : McpTool) (nv : Option String) (h : t.name = some nv) :
    ∃ out, mcp_tool_to_openai_tool t = Except.ok out := by
  simp only [mcp_tool_to_openai_tool]
  cases harg : t.arguments.getD none with
  | none => exact ⟨_, rfl⟩
  | some l =>
    cases l with
    | nil => exact ⟨_, rfl⟩
    | cons a as =>
      rcases processArgs_total (a :: as) nv ⟨"object", [], []⟩ with ⟨ps, hps⟩
      simp only [harg, h]
      rw [hps]
      exact ⟨_, rfl⟩

/-- C2: the claim says the translator never raises, even on a descriptor
missing its name and on arguments missing their fields.  The code violates
this: the nameless-argument diagnostic at `mcp_client.py` line 58 reads
`mcp_tool.name` directly, so a descriptor with no `name` attribute whose
argument list contains a nameless argument makes the translator raise
`AttributeError` instead of producing a target-form descriptor. -/
theorem translator_raises_on_nameless_tool_and_arg :
    mcp_tool_to_openai_tool c2FailTool = Except.error "AttributeError: name" := rfl

/-- C3 counterexample: on a descriptor with two arguments both named `x`,
the properties dict holds one entry while two arguments have non-empty
names, so the claimed property count is wrong. -/
theorem translator_prop_count_counterexample :
    (mcp_tool_to_openai_tool c3DupTool).map
        (fun o => o.function.parameters.properties.length) = Except.ok 1 ∧
    specNamedArgCount c3DupTool = 2 ∧
    ¬ ((mcp_tool_to_openai_tool c3DupTool).map
        (fun o => o.function.parameters.properties.length) =
       Except.ok (specNamedArgCount c3DupTool)) := by
  refine ⟨rfl, rfl, ?_⟩
  intro hc
  rw [show specNamedArgCount c3DupTool = 2 from rfl] at hc
  rw [show (mcp_tool_to_openai_tool c3DupTool).map
      (fun o => o.function.parameters.properties.length) = Except.ok 1 from rfl] at hc
  exact absurd (Except.ok.inj hc) (by decide)

/-- C3 (amended): whenever the translation succeeds, the required list is a
subset of the property-name set, the property-name list is the
first-occurrence deduplication of the non-empty argument names (so the
property count equals the number of DISTINCT non-empty names), and a
descriptor with zero arguments yields empty properties and an empty
required list. -/
theorem translator_schema_shape (t : McpTool) (out : OpenAITool)
    (h : mcp_tool_to_openai_tool t = Except.ok out) :
    (∀ x ∈ out.function.parameters.required,
      x ∈ out.function.parameters.properties.map Prod.fst) ∧
    out.function.parameters.properties.map Prod.fst =
      ((pyArgs t).filterMap effName).foldl insKey [] ∧
    out.function.parameters.properties.length =
      (((pyArgs t).filterMap effName).foldl insKey []).length ∧
    (pyArgs t = [] →
      out.function.parameters.properties = [] ∧
      out.function.parameters.required = []) := by
  have hs := translator_ok_spec t out h
  refine ⟨?_, hs.2.2.2.2.1, ?_, ?_⟩
  · intro x hx
    rw [hs.2.2.2.2.2] at hx
    rw [hs.2.2.2.2.1]
    rcases List.mem_filterMap.mp hx with ⟨a, ha, hr⟩
    have he : effName a = some x := by
      simp only [reqName] at hr
      cases he2 : effName a with
      | none => rw [he2] at hr; simp at hr
      | some n =>
        rw [he2] at hr
        by_cases hq : pyReq a <;> simp [hq] at hr
        · rw [hr]
    apply mem_foldl_insKey
    exact List.mem_filterMap.mpr ⟨a, ha, he⟩
  · have := congrArg List.length hs.2.2.2.2.1
    simpa using this
  · intro hz
    constructor
    · have := hs.2.2.2.2.1
      rw [hz] at this
      simpa using this
    · rw [hs.2.2.2.2.2, hz]
      rfl

/-- C3 witness at a concrete descriptor with two distinct named arguments. -/
theorem translator_schema_shape_witness :
    mcp_tool_to_openai_tool addTool = Except.ok addToolOut ∧
    ((∀ x ∈ addToolOut.function.parameters.required,
        x ∈ addToolOut.function.parameters.properties.map Prod.fst) ∧
     addToolOut.function.parameters.properties.map Prod.fst =
       ((pyArgs addTool).filterMap effName).foldl insKey [] ∧
     addToolOut.function.parameters.properties.length =
       (((pyArgs addTool).filterMap effName).foldl insKey []).length ∧
     (pyArgs addTool = [] →
       addToolOut.function.parameters.properties = [] ∧
       addToolOut.function.parameters.required = [])) :=
  ⟨rfl, translator_schema_shape addTool addToolOut rfl⟩

/-- C9 counterexample: a descriptor with no `name` attribute, one named and
one nameless argument: instead of skipping the nameless entry and keeping
the named ones, translation raises. -/
theorem nameless_arg_skip_counterexample :
    mcp_tool_to_openai_tool c9FailTool = Except.error "AttributeError: name" := rfl

/-- C9 (amended): provided the tool descriptor has a `name` attribute (so
the skip diagnostic can execute), translation never raises; every argument
with a falsy name is excluded from the properties and from the required
list, while every remaining named argument is still translated (the
property-name list is exactly the deduplication of the non-empty argument
names, and the required list collects exactly the required named
arguments). -/
theorem nameless_arg_skipped_when_tool_named (t : McpTool) (nv : Option String)
    (h : t.name = some nv) :
    ∃ out, mcp_tool_to_openai_tool t = Except.ok out ∧
      out.function.parameters.properties.map Prod.fst =
        ((pyArgs t).filterMap effName).foldl insKey [] ∧
      out.function.parameters.required = (pyArgs t).filterMap reqName := by
  rcases translator_total_of_named t nv h with ⟨out, hout⟩
  have hs := translator_ok_spec t out hout
  exact ⟨out, hout, hs.2.2.2.2.1, hs.2.2.2.2.2⟩

/-- C9 witness at a concrete named descriptor with a nameless middle
argument: the translation keeps `a` and `b` and drops the nameless entry. -/
theorem nameless_arg_skipped_witness :
    c9WitTool.name = some (some "calc") ∧
    (∃ out, mcp_tool_to_openai_tool c9WitTool = Except.ok out ∧
      out.function.parameters.properties.map Prod.fst =
        ((pyArgs c9WitTool).filterMap effName).foldl insKey [] ∧
      out.function.parameters.required = (pyArgs c9WitTool).filterMap reqName) :=
  ⟨rfl, nameless_arg_skipped_when_tool_named c9WitTool (some "calc") rfl⟩

/-- C10: descriptions in a successfully translated descriptor are never
null: a present-but-null tool description is normalized to the empty
string, and every property's description came from its argument through
the same normalization (null becomes the empty string). -/
theorem translator_descriptions_never_null (t : McpTool) (out : OpenAITool)
    (h : mcp_tool_to_openai_tool t = Except.ok out) :
    (t.description = some none → out.function.description = some "") ∧
    out.function.description ≠ none ∧
    (∀ x ∈ out.function.parameters.properties,
      x.2.description ≠ none ∧
      ∃ a, a ∈ pyArgs t ∧ effName a = some x.1 ∧
        (a.description = some none → x.2.description = some "")) := by
  have hs := translator_ok_spec t out h
  refine ⟨?_, ?_, ?_⟩
  · intro hd
    rw [hs.2.2.1, hd]
    rfl
  · rw [hs.2.2.1]
    exact pyOrStr_ne_none _
  · intro x hx
    rcases translator_props_origin t out h x hx with ⟨a, ha, he, hv⟩
    refine ⟨?_, a, ha, he, ?_⟩
    · rw [hv]
      exact pyOrStr_ne_none _
    · intro hd
      rw [hv, mkSchema, hd]
      rfl

/-- C10 witness at a descriptor whose own description and whose argument's
description are present but null. -/
theorem translator_descriptions_never_null_witness :
    mcp_tool_to_openai_tool c10NullDescTool = Except.ok c10NullDescOut ∧
    ((c10NullDescTool.description = some none →
        c10NullDescOut.function.description = some "") ∧
     c10NullDescOut.function.description ≠ none ∧
     (∀ x ∈ c10NullDescOut.function.parameters.properties,
       x.2.description ≠ none ∧
       ∃ a, a ∈ pyArgs c10NullDescTool ∧ effName a = some x.1 ∧
         (a.description = some none → x.2.description = some ""))) :=
  ⟨rfl, translator_descriptions_never_null c10NullDescTool c10NullDescOut rfl⟩

theorem handleToolCall_fields (env : TurnEnv) (tc : ToolCall) :
    (handleToolCall env tc).1.role = Role.tool ∧
    (handleToolCall env tc).1.tool_call_id = some tc.id ∧
    (handleToolCall env tc).1.name = some tc.function.name := by
  cases h1 : env.jsonLoads tc.function.arguments with
  | error e => simp [handleToolCall, h1, mkToolMsg]
  | ok args =>
    cases h2 : env.callTool tc.function.name args with
    | ok r => simp [handleToolCall, h1, h2, mkToolMsg]
    | error e => simp [handleToolCall, h1, h2, mkToolMsg]

theorem chatLoop_cons_eq (tools : List OpenAITool) (s : String) (env : TurnEnv)
    (rest : List (String × TurnEnv)) (msgs : List Message) (evs : List Event) :
    chatLoop tools ((s, env) :: rest) msgs evs =
      (if isExitRequest s then (msgs, evs, ExitKind.exitCommand)
       else if isEmptyRequest s then chatLoop tools rest msgs evs
       else
         match (runTurn env tools msgs s).answer with
         | some _ =>
           chatLoop tools rest (runTurn env tools msgs s).messages
             (evs ++ (runTurn env tools msgs s).events)
         | none =>
           ((runTurn env tools msgs s).messages,
            evs ++ (runTurn env tools msgs s).events, ExitKind.loopError)) := rfl

/-- C4: within one batch of tool-call intents, every intent is processed
(one result message per intent, the batch is never shortened or aborted);
the intent whose argument payload fails to decode gets the synthesized
JSON-error content, and the intent whose invocation fails gets the failure
text, each as a tool-role message carrying the intent's call id. -/
theorem tool_errors_recovered_per_call (env : TurnEnv) (intents : List ToolCall)
    (i : Nat) (tc : ToolCall) (hi : intents[i]? = some tc) :
    (processToolCalls env intents).length = intents.length ∧
    (processToolCalls env intents)[i]? = some (handleToolCall env tc) ∧
    (handleToolCall env tc).1.role = Role.tool ∧
    (handleToolCall env tc).1.tool_call_id = some tc.id ∧
    (∀ e, env.jsonLoads tc.function.arguments = Except.error e →
      (handleToolCall env tc).1.content =
        some "Ошибка: неверный формат аргументов JSON.") ∧
    (∀ args e, env.jsonLoads tc.function.arguments = Except.ok args →
      env.callTool tc.function.name args = Except.error e →
      (handleToolCall env tc).1.content =
        some ("Ошибка выполнения инструмента: " ++ e)) := by
  refine ⟨?_, ?_, (handleToolCall_fields env tc).1, (handleToolCall_fields env tc).2.1, ?_, ?_⟩
  · simp [processToolCalls]
  · simp [processToolCalls, hi]
  · intro e he
    simp [handleToolCall, he, mkToolMsg]
  · intro args e hargs hcall
    simp [handleToolCall, hargs, hcall, mkToolMsg]

/-- C4 witness: in a concrete three-intent batch, the undecodable intent
yields the synthesized JSON error, the failing invocation yields the
failure text, and the batch keeps all three results. -/
theorem tool_errors_recovered_witness :
    wResp.tool_calls[2]? = some wTc3 ∧
    (processToolCalls wToolEnv wResp.tool_calls).length = wResp.tool_calls.length ∧
    (handleToolCall wToolEnv wTc3).1.content =
      some "Ошибка: неверный формат аргументов JSON." := by
  have h := tool_errors_recovered_per_call wToolEnv wResp.tool_calls 2 wTc3 rfl
  exact ⟨rfl, h.1, h.2.2.2.2.1 "Expecting value" rfl⟩

/-- C1: when the first completion response carries tool-call intents, the
turn's externally visible requests are exactly: the first completion
request, the tool invocations, and then the next completion request, whose
message list is the history extended with exactly one tool-role message per
intent, in intent order, each carrying its intent's call id and function
name.  No further completion request is issued before those messages are
appended. -/
theorem tool_results_precede_next_request (env : TurnEnv) (tools : List OpenAITool)
    (msgs : List Message) (s : String) (resp : CompletionResponse)
    (h1 : env.completion1 = Except.ok resp) (h2 : resp.tool_calls ≠ []) :
    (runTurn env tools msgs s).events =
      Event.completionRequest (msgs ++ [mkUserMsg s])
          (if tools.isEmpty then none else some tools) (some "auto") ::
        ((processToolCalls env resp.tool_calls).map Prod.snd).flatten ++
        [Event.completionRequest
          ((msgs ++ [mkUserMsg s, mkAssistantToolMsg resp]) ++
            (processToolCalls env resp.tool_calls).map Prod.fst) none none] ∧
    ((processToolCalls env resp.tool_calls).map Prod.fst).length =
      resp.tool_calls.length ∧
    (∀ (i : Nat) (tc : ToolCall), resp.tool_calls[i]? = some tc →
      ((processToolCalls env resp.tool_calls).map Prod.fst)[i]? =
        some (handleToolCall env tc).1 ∧
      (handleToolCall env tc).1.role = Role.tool ∧
      (handleToolCall env tc).1.tool_call_id = some tc.id ∧
      (handleToolCall env tc).1.name = some tc.function.name) := by
  have hne : resp.tool_calls.isEmpty = false := by
    cases hc : resp.tool_calls with
    | nil => exact absurd hc h2
    | cons a as => rfl
  refine ⟨?_, ?_, ?_⟩
  · simp only [runTurn, h1, hne]
    cases env.completion2 <;> simp
  · simp [processToolCalls]
  · intro i tc hi
    refine ⟨?_, handleToolCall_fields env tc⟩
    simp [processToolCalls, hi]

/-- C1 witness at a concrete three-intent turn. -/
theorem tool_results_precede_next_request_witness :
    wToolEnv.completion1 = Except.ok wResp ∧ wResp.tool_calls ≠ [] ∧
    ((runTurn wToolEnv [] [] "2 + 2").events =
      Event.completionRequest ([] ++ [mkUserMsg "2 + 2"])
          (if ([] : List OpenAITool).isEmpty then none else some []) (some "auto") ::
        ((processToolCalls wToolEnv wResp.tool_calls).map Prod.snd).flatten ++
        [Event.completionRequest
          (([] ++ [mkUserMsg "2 + 2", mkAssistantToolMsg wResp]) ++
            (processToolCalls wToolEnv wResp.tool_calls).map Prod.fst) none none] ∧
     ((processToolCalls wToolEnv wResp.tool_calls).map Prod.fst).length =
       wResp.tool_calls.length ∧
     (∀ (i : Nat) (tc : ToolCall), wResp.tool_calls[i]? = some tc →
       ((processToolCalls wToolEnv wResp.tool_calls).map Prod.fst)[i]? =
         some (handleToolCall wToolEnv tc).1 ∧
       (handleToolCall wToolEnv tc).1.role = Role.tool ∧
       (handleToolCall wToolEnv tc).1.tool_call_id = some tc.id ∧
       (handleToolCall wToolEnv tc).1.name = some tc.function.name)) :=
  ⟨rfl, by decide,
   tool_results_precede_next_request wToolEnv [] [] "2 + 2" wResp rfl (by decide)⟩

/-- C5: after dispatching tool calls, the second completion request is sent
with the augmented history (all tool-result messages included) and no tool
list; its content becomes the final answer, appended to the history as an
assistant-role message. -/
theorem final_answer_after_tool_dispatch (env : TurnEnv) (tools : List OpenAITool)
    (msgs : List Message) (s : String) (resp : CompletionResponse) (ans : Option String)
    (h1 : env.completion1 = Except.ok resp) (h2 : resp.tool_calls ≠ [])
    (h3 : env.completion2 = Except.ok ans) :
    runTurn env tools msgs s =
      ⟨((msgs ++ [mkUserMsg s, mkAssistantToolMsg resp]) ++
          (processToolCalls env resp.tool_calls).map Prod.fst) ++ [mkAssistantMsg ans],
       Event.completionRequest (msgs ++ [mkUserMsg s])
           (if tools.isEmpty then none else some tools) (some "auto") ::
         ((processToolCalls env resp.tool_calls).map Prod.snd).flatten ++
         [Event.completionRequest
           ((msgs ++ [mkUserMsg s, mkAssistantToolMsg resp]) ++
             (processToolCalls env resp.tool_calls).map Prod.fst) none none],
       some ans⟩ := by
  have hne : resp.tool_calls.isEmpty = false := by
    cases hc : resp.tool_calls with
    | nil => exact absurd hc h2
    | cons a as => rfl
  simp only [runTurn, h1, hne, h3]
  simp

/-- C5 witness at a concrete three-intent turn answered with a text. -/
theorem final_answer_after_tool_dispatch_witness :
    wToolEnv.completion1 = Except.ok wResp ∧ wResp.tool_calls ≠ [] ∧
    wToolEnv.completion2 = Except.ok (some "2 + 2 = 4") ∧
    runTurn wToolEnv [] [] "2 + 2" =
      ⟨(([] ++ [mkUserMsg "2 + 2", mkAssistantToolMsg wResp]) ++
          (processToolCalls wToolEnv wResp.tool_calls).map Prod.fst) ++
        [mkAssistantMsg (some "2 + 2 = 4")],
       Event.completionRequest ([] ++ [mkUserMsg "2 + 2"])
           (if ([] : List OpenAITool).isEmpty then none else some []) (some "auto") ::
         ((processToolCalls wToolEnv wResp.tool_calls).map Prod.snd).flatten ++
         [Event.completionRequest
           (([] ++ [mkUserMsg "2 + 2", mkAssistantToolMsg wResp]) ++
             (processToolCalls wToolEnv wResp.tool_calls).map Prod.fst) none none],
       some (some "2 + 2 = 4")⟩ :=
  ⟨rfl, by decide, rfl,
   final_answer_after_tool_dispatch wToolEnv [] [] "2 + 2" wResp (some "2 + 2 = 4")
     rfl (by decide) rfl⟩

/-- C8: when tool discovery fails, the session's tool list is empty, and a
turn run with that empty list issues its first completion request with no
tool list (the `tools` argument degenerates to null), whatever the rest of
the turn does. -/
theorem discovery_failure_gives_no_tools (e : String) (env : TurnEnv)
    (msgs : List Message) (s : String) :
    setupTools (Except.error e) = [] ∧
    (runTurn env (setupTools (Except.error e)) msgs s).events.head? =
      some (Event.completionRequest (msgs ++ [mkUserMsg s]) none (some "auto")) := by
  refine ⟨rfl, ?_⟩
  show (runTurn env [] msgs s).events.head? = _
  cases h1 : env.completion1 with
  | error e2 => simp [runTurn, h1]
  | ok resp =>
    by_cases hc : resp.tool_calls.isEmpty
    · simp [runTurn, h1, hc]
    · simp only [runTurn, h1]
      rw [Bool.eq_false_iff.mpr hc]
      cases env.completion2 <;> simp

/-- C6: an input whose stripped, lowercased form is the exit keyword stops
the chat loop at once (whatever letter-casing and surrounding whitespace
were used), with the history untouched, and the client run releases the
session and the server connection. -/
theorem exit_keyword_terminates (s : String)
    (h : pyLower (pyStrip s.toList) = "выход".toList) :
    ∀ (env : TurnEnv) (rest : List (String × TurnEnv)) (tools : List OpenAITool)
      (msgs : List Message) (evs : List Event) (lt : Except String (List McpTool)),
      chatLoop tools ((s, env) :: rest) msgs evs = (msgs, evs, ExitKind.exitCommand) ∧
      (run_client lt ((s, env) :: rest)).exit = ExitKind.exitCommand ∧
      (run_client lt ((s, env) :: rest)).sessionClosed = true ∧
      (run_client lt ((s, env) :: rest)).connectionClosed = true := by
  intro env rest tools msgs evs lt
  have hb : isExitRequest s = true := by
    unfold isExitRequest
    exact decide_eq_true h
  refine ⟨?_, ?_, rfl, rfl⟩
  · rw [chatLoop_cons_eq]
    simp [hb]
  · show (chatLoop (setupTools lt) ((s, env) :: rest) [mkSystemMsg] []).2.2 = _
    rw [chatLoop_cons_eq]
    simp [hb]

/-- C6 witness: the exit keyword upper-cased and padded with whitespace. -/
theorem exit_keyword_terminates_witness :
    pyLower (pyStrip "  ВЫХОД  ".toList) = "выход".toList ∧
    (chatLoop [] [("  ВЫХОД  ", wPlainEnv)] [mkSystemMsg] [] =
      ([mkSystemMsg], [], ExitKind.exitCommand) ∧
     (run_client (Except.error "down") [("  ВЫХОД  ", wPlainEnv)]).exit =
       ExitKind.exitCommand ∧
     (run_client (Except.error "down") [("  ВЫХОД  ", wPlainEnv)]).sessionClosed = true ∧
     (run_client (Except.error "down") [("  ВЫХОД  ", wPlainEnv)]).connectionClosed = true) :=
  ⟨by decide,
   exit_keyword_terminates "  ВЫХОД  " (by decide) wPlainEnv [] [] [mkSystemMsg] []
     (Except.error "down")⟩

/-- C7: an input that strips to nothing (and therefore is not the exit
keyword) makes the loop continue with the remaining inputs, with the same
history and with no external request issued for that iteration. -/
theorem empty_input_preserves_state (s : String) (h : pyStrip s.toList = []) :
    ∀ (env : TurnEnv) (rest : List (String × TurnEnv)) (tools : List OpenAITool)
      (msgs : List Message) (evs : List Event),
      chatLoop tools ((s, env) :: rest) msgs evs = chatLoop tools rest msgs evs := by
  intro env rest tools msgs evs
  have hb : isEmptyRequest s = true := by
    unfold isEmptyRequest
    exact decide_eq_true h
  have hx : isExitRequest s = false := by
    unfold isExitRequest
    apply decide_eq_false
    rw [h]
    simp [pyLower]
  rw [chatLoop_cons_eq]
  simp [hx, hb]

/-- C7 witness: a whitespace-only input in front of a real one. -/
theorem empty_input_preserves_state_witness :
    pyStrip "   ".toList = [] ∧
    chatLoop [] [("   ", wPlainEnv), ("привет", wPlainEnv)] [mkSystemMsg] [] =
      chatLoop [] [("привет", wPlainEnv)] [mkSystemMsg] [] :=
  ⟨by decide,
   empty_input_preserves_state "   " (by decide) wPlainEnv [("привет", wPlainEnv)] []
     [mkSystemMsg] []⟩
